import Mathlib

/-!
Verification development for the streamlit-gantt repository.

The embedding below translates the core logic of the repository into Lean:

* `utils/dates.py` — calendar-grid helpers (`month_range`, `make_tickvals`)
  and the segment clipper (`clip_segment_to_range`);
* `components/gantt.py` — the timeline assembler (`build_gantt_dataframe`);
* `utils/state.py` — the undo/redo history manager
  (`push_history`, `update_data`, `undo`, `redo`).

Dates: Python `datetime.date` values are represented by `Date` below, which
stores an absolute month index `ym` (`year * 12 + (month - 1)`) and the
day-of-month `day`.  For valid calendar dates the lexicographic order on
`(ym, day)` coincides with Python's `date` order, the Python idiom
`(d.replace(day=28) + timedelta(days=4)).replace(day=1)` (first day of the
next month) becomes `⟨ym + 1, 1⟩`, and `next_month - timedelta(days=1)`
(last day of the month) becomes `⟨ym, daysInMonth ym⟩`.  All time-of-day
handling in the source normalizes to midnight (`datetime.combine(...,
datetime.min.time())`), so `datetime` values are also represented by `Date`.
-/

structure Date where
  ym : Int
  day : Int
  deriving DecidableEq, Repr

/-- Build a `Date` from year, month (1-12) and day of month. -/
def mkDate (y m d : Int) : Date := ⟨y * 12 + (m - 1), d⟩

/-- Python `date` comparison `a <= b`, via the lexicographic order on
`(ym, day)` (identical to calendar order for valid dates). -/
def Date.le (a b : Date) : Bool :=
  decide (a.ym < b.ym ∨ (a.ym = b.ym ∧ a.day ≤ b.day))

/-- Python `date` comparison `a < b`. -/
def Date.lt (a b : Date) : Bool :=
  decide (a.ym < b.ym ∨ (a.ym = b.ym ∧ a.day < b.day))

/-- Python `min(a, b)` on dates (returns the first argument on ties). -/
def dmin (a b : Date) : Date := if Date.le a b then a else b

/-- Python `max(a, b)` on dates (returns the first argument on ties). -/
def dmax (a b : Date) : Date := if Date.le b a then a else b

/-- Gregorian leap-year test on the year of an absolute month index. -/
def isLeap (y : Int) : Bool :=
  y.emod 4 = 0 ∧ (y.emod 100 ≠ 0 ∨ y.emod 400 = 0)

/-- Number of days in the month with absolute index `ym`
(month number `ym.emod 12 + 1` of year `ym.ediv 12`). -/
def daysInMonth (ym : Int) : Int :=
  let m := ym.emod 12 + 1
  if m = 2 then (if isLeap (ym.ediv 12) then 29 else 28)
  else if m = 4 ∨ m = 6 ∨ m = 9 ∨ m = 11 then 30
  else 31

/-- Loop body of `month_range` (`utils/dates.py`): while `current <= last`,
emit `(current, min(next_month - 1 day, last))` and advance `current` to the
first day of the next month.  The loop is expressed with explicit fuel so the
definition is structural (kernel-reducible); the fuel passed by `month_range`
is exactly the number of months from `current` to `last`, so the `0` arm is
reached only when `current <= last` is already false
(`month_range_go_fuel_irrel` below shows any sufficient fuel is equivalent). -/
def month_range_go : Nat → Date → Date → List (Date × Date)
  | 0, _, _ => []
  | n + 1, current, last =>
    if Date.le current last then
      (current, dmin ⟨current.ym, daysInMonth current.ym⟩ last) ::
        month_range_go n ⟨current.ym + 1, 1⟩ last
    else []

/-- `month_range(start, end)` from `utils/dates.py`: partitions the span into
calendar-month buckets, starting from `start.replace(day=1)`.  The source
performs no validation of `end >= start` and never raises on date inputs. -/
def month_range (start last : Date) : List (Date × Date) :=
  month_range_go (last.ym + 1 - start.ym).toNat ⟨start.ym, 1⟩ last

/-- Inner loop of `make_tickvals`: for each candidate day 6/12/18/24 of the
bucket `(ms, me)`, keep `ms.replace(day=day)` when `day <= me.day` and the
resulting date lies in `[ms, me]`; then append the bucket end itself. -/
def ticksForMonth (ms me : Date) : List Date :=
  (([6, 12, 18, 24] : List Int).filterMap fun d =>
    if d ≤ me.day then
      if Date.le ms ⟨ms.ym, d⟩ && Date.le ⟨ms.ym, d⟩ me then
        some ⟨ms.ym, d⟩
      else none
    else none) ++ [me]

/-- `make_tickvals(start, end)` from `utils/dates.py`: tick positions for
6/12/18/24/last day of each month, finally filtered to `[start, end]`.
Like `month_range` it performs no range validation and never raises. -/
def make_tickvals (start last : Date) : List Date :=
  ((month_range start last).flatMap fun p => ticksForMonth p.1 p.2).filter
    fun t => Date.le start t && Date.le t last

/-- `ClippedSegment` dataclass from `utils/dates.py`. -/
structure ClippedSegment where
  project_id : String
  label : String
  start : Date
  «end» : Date
  deriving DecidableEq, Repr

/-- `clip_segment_to_range` from `utils/dates.py`.  `Except.error` models the
`ValueError` raised when `end < start` (raised before the view window is even
looked at); `Except.ok none` models the `None` returned when the segment does
not overlap the view window. -/
def clip_segment_to_range (project_id label : String)
    (start «end» view_start view_end : Date) :
    Except String (Option ClippedSegment) :=
  if Date.lt «end» start then
    .error "end_date must be greater than or equal to start_date"
  else if Date.lt «end» view_start || Date.lt view_end start then
    .ok none
  else
    .ok (some ⟨project_id, label, dmax start view_start, dmin «end» view_end⟩)

/-!
Embedding of `components/gantt.py` (`build_gantt_dataframe`).

A projects-table row is modelled with the columns that
`build_gantt_dataframe` actually reads: `id`, `name`, `progress`, `color`,
`start_date`, `end_date`.  The remaining columns (`client`, `site`,
`work_type`, `owner`, `note`) pass through the merge untouched and are never
inspected, so they are omitted from the record.  `color` is `Option String`
because a missing (NaN) cell is what `fillna(DEFAULT_COLOR)` replaces.

The merge in the source is

  `segments_df.merge(projects_df, left_on="project_id", right_on="id",
                     how="left", suffixes=("_segment", ""))`

so the overlapping columns `start_date`/`end_date` of the *segment* are
renamed to `start_date_segment`/`end_date_segment`, and the unsuffixed
`start_date`/`end_date` that the subsequent lines read are the *project's*
columns.  `how="left"` keeps a row for a segment without a matching project,
with every project column equal to NaN; `pd.to_datetime` then yields NaT, and
the row filter `(end >= view_start) & (start <= view_end)` is false on NaT,
so such a row is always dropped.  The model represents the matched project of
a merged row as `Option ProjectRow` and drops the `none` rows in
`toPreRow`.
-/

/-- One row of the projects table (columns read by `build_gantt_dataframe`). -/
structure ProjectRow where
  id : String
  name : String
  progress : String
  color : Option String
  start_date : Date
  end_date : Date
  deriving DecidableEq, Repr

/-- One row of the segments table. -/
structure SegmentRow where
  segment_id : String
  project_id : String
  label : String
  start_date : Date
  end_date : Date
  deriving DecidableEq, Repr

/-- `DEFAULT_COLOR` from `components/gantt.py`. -/
def DEFAULT_COLOR : String := "#f97316"

/-- The left merge of `build_gantt_dataframe`: one output row per
(segment, matching project) pair, in segment order (with the matching
projects in table order), and a single row with no project (`none`, all
project columns NaN) for a segment whose `project_id` matches no project. -/
def mergePairs (projects : List ProjectRow) (segments : List SegmentRow) :
    List (SegmentRow × Option ProjectRow) :=
  segments.flatMap fun s =>
    match projects.filter (fun p => p.id == s.project_id) with
    | [] => [(s, none)]
    | ps => ps.map fun p => (s, some p)

/-- A merged row together with its position `midx` in the merged frame
(pandas assigns the merge result a fresh `RangeIndex 0..n-1`; the row
position is what makes the later stable sort deterministic). -/
structure MergedRow where
  seg : SegmentRow
  proj : Option ProjectRow
  midx : Nat
  deriving DecidableEq, Repr

/-- The merged frame with row positions. -/
def mergeRows (projects : List ProjectRow) (segments : List SegmentRow) :
    List MergedRow :=
  (mergePairs projects segments).enum.map fun ip => ⟨ip.2.1, ip.2.2, ip.1⟩

/-- A row of the merged frame after the column assignments and the row
filter of `build_gantt_dataframe`, before sorting. -/
structure PreRow where
  segment_id : String
  project_id : String
  label : String
  name : String
  progress : String
  color : String
  start : Date
  «end» : Date
  midx : Nat
  deriving DecidableEq, Repr

/-- pandas `Series.clip(lower=lo)` on a date value. -/
def clipLower (d lo : Date) : Date := if Date.lt d lo then lo else d

/-- pandas `Series.clip(upper=hi)` on a date value. -/
def clipUpper (d hi : Date) : Date := if Date.lt hi d then hi else d

/-- Column assignments and row filter of `build_gantt_dataframe` for one
merged row: fill the colour (`fillna(DEFAULT_COLOR)` also covers the NaN
produced for an unmatched segment), take `start`/`end` from the *project's*
`start_date`/`end_date` columns (see the merge note above), clip them to the
view window, and keep the row when `end >= view_start` and
`start <= view_end`.  A row with no matching project has `start = end = NaT`,
for which both comparisons are false in pandas, so it is dropped — this is
the `none` branch. -/
def toPreRow (view_start view_end : Date) (m : MergedRow) : Option PreRow :=
  match m.proj with
  | none => none
  | some p =>
    let s := clipLower p.start_date view_start
    let e := clipUpper p.end_date view_end
    if Date.le view_start e && Date.le s view_end then
      some ⟨m.seg.segment_id, m.seg.project_id, m.seg.label, p.name, p.progress,
        (p.color).getD DEFAULT_COLOR, s, e, m.midx⟩
    else none

/-- The merged, filtered rows, still in merge order. -/
def ganttFilter (projects : List ProjectRow) (segments : List SegmentRow)
    (view_start view_end : Date) : List PreRow :=
  (mergeRows projects segments).filterMap (toPreRow view_start view_end)

/-- Comparator realizing `merged.sort_values(["project_id", "start"])`:
pandas performs a *stable* lexicographic sort on `(project_id, start)`, which
is exactly a total sort on the key extended with the pre-sort row position
`midx` (distinct for every row), so ties on `(project_id, start)` keep their
original relative order.  Python compares strings lexicographically by code
point, which is the lexicographic order on the character list `.data` (the
same relation as `String.lt`, spelled on `.data` to stay kernel-reducible). -/
def ganttLe (a b : PreRow) : Bool :=
  decide (a.project_id.data < b.project_id.data) ||
    (decide (a.project_id = b.project_id) &&
      (Date.lt a.start b.start ||
        (decide (a.start = b.start) && decide (a.midx ≤ b.midx))))

/-- `ganttLe` as a relation, for `List.insertionSort`. -/
def ganttRel (a b : PreRow) : Prop := ganttLe a b = true

instance : DecidableRel ganttRel := fun a b =>
  inferInstanceAs (Decidable (ganttLe a b = true))

instance : IsTotal PreRow ganttRel where
  total a b := by
    have hd : ∀ x y : Date, x = y ↔ x.ym = y.ym ∧ x.day = y.day := by
      intro x y
      cases x
      cases y
      simp
    unfold ganttRel ganttLe
    simp only [Bool.or_eq_true, Bool.and_eq_true, decide_eq_true_eq, Date.lt, hd]
    rcases lt_trichotomy a.project_id.data b.project_id.data with h | h | h
    · exact Or.inl (Or.inl h)
    · have hX : (a.start.ym < b.start.ym ∨ a.start.ym = b.start.ym ∧ a.start.day < b.start.day) ∨
          ((a.start.ym = b.start.ym ∧ a.start.day = b.start.day) ∧ a.midx ≤ b.midx) ∨
          (b.start.ym < a.start.ym ∨ b.start.ym = a.start.ym ∧ b.start.day < a.start.day) ∨
          ((b.start.ym = a.start.ym ∧ b.start.day = a.start.day) ∧ b.midx ≤ a.midx) := by
        omega
      rcases hX with hX | hX | hX | hX
      · exact Or.inl (Or.inr ⟨String.ext h, Or.inl hX⟩)
      · exact Or.inl (Or.inr ⟨String.ext h, Or.inr hX⟩)
      · exact Or.inr (Or.inr ⟨(String.ext h).symm, Or.inl hX⟩)
      · exact Or.inr (Or.inr ⟨(String.ext h).symm, Or.inr hX⟩)
    · exact Or.inr (Or.inl h)

instance : IsTrans PreRow ganttRel where
  trans a b c hab hbc := by
    have hd : ∀ x y : Date, x = y ↔ x.ym = y.ym ∧ x.day = y.day := by
      intro x y
      cases x
      cases y
      simp
    unfold ganttRel ganttLe at hab hbc ⊢
    simp only [Bool.or_eq_true, Bool.and_eq_true, decide_eq_true_eq, Date.lt, hd] at hab hbc ⊢
    rcases hab with h1 | ⟨h1, h2⟩ <;> rcases hbc with g1 | ⟨g1, g2⟩
    · exact Or.inl (h1.trans g1)
    · exact Or.inl (g1 ▸ h1)
    · exact Or.inl (h1 ▸ g1)
    · refine Or.inr ⟨h1.trans g1, ?_⟩
      omega

/-- `merged.groupby("project_id").cumcount()` plus the `display_name`
column: row `i` of the sorted frame receives ordinal equal to the number of
earlier rows of the same `project_id`, and
`display_name = name + " / " + label`. -/
structure GanttRow where
  segment_id : String
  project_id : String
  label : String
  name : String
  progress : String
  color : String
  start : Date
  «end» : Date
  midx : Nat
  row : Nat
  display_name : String
  deriving DecidableEq, Repr

/-- Ordinal assignment (`groupby(...).cumcount()`) and `display_name`. -/
def addOrdinals (l : List PreRow) : List GanttRow :=
  l.enum.map fun ir =>
    { segment_id := ir.2.segment_id, project_id := ir.2.project_id,
      label := ir.2.label, name := ir.2.name, progress := ir.2.progress,
      color := ir.2.color, start := ir.2.start, «end» := ir.2.«end»,
      midx := ir.2.midx,
      row := (l.take ir.1).countP fun q => q.project_id == ir.2.project_id,
      display_name := ir.2.name ++ " / " ++ ir.2.label }

/-- `build_gantt_dataframe` from `components/gantt.py`: merge, fill colour,
clip to the view window, drop non-overlapping (and unmatched) rows, stable
sort by `(project_id, start)`, assign per-project row ordinals, and add the
display label. -/
def build_gantt_dataframe (projects : List ProjectRow)
    (segments : List SegmentRow) (view_start view_end : Date) :
    List GanttRow :=
  addOrdinals
    (List.insertionSort ganttRel (ganttFilter projects segments view_start view_end))

/-!
Embedding of `utils/state.py` (the edit-history manager).

`history` and `future` are `deque(maxlen=HISTORY_LIMIT)`.  `history` is used
from the right (`append`/`pop`): the model keeps the oldest snapshot at the
head of the list and the newest at the end, and a full `append` evicts the
head.  `future` is used from the left (`appendleft`/`popleft`): the model
keeps the newest snapshot at the head, and a full `appendleft` evicts the
last element.  Dataframe `.copy()` calls make snapshots independent values,
which is implicit in the pure model.  `st.toast(...)` on underflow is
modelled by the `Bool` component returned by `undo`/`redo` (`true` exactly
when the user-visible notice is emitted and the state is left untouched). -/

/-- `HISTORY_LIMIT` from `utils/state.py`. -/
def HISTORY_LIMIT : Nat := 20

/-- A snapshot: the pair of current tables. -/
def Snapshot : Type := List ProjectRow × List SegmentRow

/-- `deque.append` on a `deque(maxlen=HISTORY_LIMIT)` holding the oldest
element first: evicts the oldest element when full. -/
def dequeAppend (l : List Snapshot) (x : Snapshot) : List Snapshot :=
  if l.length < HISTORY_LIMIT then l ++ [x] else l.tail ++ [x]

/-- `deque.appendleft` on a `deque(maxlen=HISTORY_LIMIT)` holding the newest
element first: evicts the oldest (last) element when full. -/
def dequeAppendLeft (l : List Snapshot) (x : Snapshot) : List Snapshot :=
  if l.length < HISTORY_LIMIT then x :: l else x :: l.dropLast

/-- `AppState` dataclass from `utils/state.py`.  `filters` and `settings`
are string-keyed dictionaries whose values the history operations never
inspect; they are modelled as association lists. -/
structure AppState where
  projects_df : List ProjectRow
  segments_df : List SegmentRow
  filters : List (String × String)
  settings : List (String × String)
  history : List Snapshot
  future : List Snapshot

/-- `push_history` from `utils/state.py`: push a copy of the current tables
onto `history` and clear `future` unconditionally. -/
def push_history (st : AppState) : AppState :=
  { st with
    history := dequeAppend st.history (st.projects_df, st.segments_df)
    future := [] }

/-- `update_data` from `utils/state.py`: `push_history` followed by a
wholesale replacement of the current tables. -/
def update_data (st : AppState) (projects_df : List ProjectRow)
    (segments_df : List SegmentRow) : AppState :=
  { push_history st with projects_df := projects_df, segments_df := segments_df }

/-- `undo` from `utils/state.py`.  Returns the new state and whether the
"nothing to undo" notice was shown.  With empty `history` it is a no-op with
a notice; otherwise it pushes the current tables onto the front of `future`
and pops the most recent `history` entry into the current tables. -/
def undo (st : AppState) : AppState × Bool :=
  match st.history.getLast? with
  | none => (st, true)
  | some prev =>
    ({ st with
        projects_df := prev.1
        segments_df := prev.2
        history := st.history.dropLast
        future := dequeAppendLeft st.future (st.projects_df, st.segments_df) },
      false)

/-- `redo` from `utils/state.py`: symmetric to `undo`, consuming the head of
`future`. -/
def redo (st : AppState) : AppState × Bool :=
  match st.future with
  | [] => (st, true)
  | nxt :: rest =>
    ({ st with
        projects_df := nxt.1
        segments_df := nxt.2
        history := dequeAppend st.history (st.projects_df, st.segments_df)
        future := rest },
      false)

/-!
Concrete sample data used by the closed witness and counterexample
theorems below. -/

/-- A sample project, id `"a"`, spanning July 2025. -/
def pSample : ProjectRow :=
  ⟨"a", "N", "予定", none, mkDate 2025 7 1, mkDate 2025 7 31⟩

/-- A sample segment of project `"a"`. -/
def sSample : SegmentRow :=
  ⟨"s1", "a", "A", mkDate 2025 7 10, mkDate 2025 7 20⟩

/-- A segment whose `project_id` (`"zz"`) matches no project. -/
def sOrphan : SegmentRow :=
  ⟨"s0", "zz", "L0", mkDate 2025 7 1, mkDate 2025 7 31⟩

/-- A second segment of project `"a"`, listed before `sSample` in the sample
segments table but with the larger `segment_id`. -/
def sTie : SegmentRow :=
  ⟨"s2", "a", "B", mkDate 2025 7 10, mkDate 2025 7 20⟩

/-- An `AppState` with empty history and future stacks. -/
def emptyState : AppState := ⟨[pSample], [sSample], [], [], [], []⟩

/-- The payload for two same-project segments listed as `sTie` (segment id
`"s2"`) before `sSample` (segment id `"s1"`), over the July 2025 view. -/
def tieBuild : List GanttRow :=
  build_gantt_dataframe [pSample] [sTie, sSample]
    (mkDate 2025 7 1) (mkDate 2025 7 31)

/-- The fuel used in `month_range` is canonical: any fuel at least the number
of remaining months yields the same bucket list, so the fuel-based loop agrees
with the unbounded `while` loop of the source. -/
theorem month_range_go_fuel_irrel : ∀ {n m : Nat} (current last : Date),
    (last.ym + 1 - current.ym).toNat ≤ n → (last.ym + 1 - current.ym).toNat ≤ m →
    month_range_go n current last = month_range_go m current last := by
  intro n
  induction n with
  | zero =>
    intro m current last hn hm
    have hlt : last.ym < current.ym := by omega
    have hle : Date.le current last = false := by
      simp only [Date.le, decide_eq_false_iff_not]
      omega
    cases m with
    | zero => rfl
    | succ m => simp [month_range_go, hle]
  | succ n ih =>
    intro m current last hn hm
    cases m with
    | zero =>
      have hle : Date.le current last = false := by
        simp only [Date.le, decide_eq_false_iff_not]
        omega
      simp [month_range_go, hle]
    | succ m =>
      by_cases hle : Date.le current last = true
      · have hy : current.ym ≤ last.ym := by
          simp only [Date.le, decide_eq_true_eq] at hle
          omega
        have hn' : (last.ym + 1 - (current.ym + 1)).toNat ≤ n := by omega
        have hm' : (last.ym + 1 - (current.ym + 1)).toNat ≤ m := by omega
        simp only [month_range_go, hle, if_true]
        rw [ih ⟨current.ym + 1, 1⟩ last hn' hm']
      · rw [Bool.not_eq_true] at hle
        simp [month_range_go, hle]

/-- Sanity check matching `test_make_tickvals_includes_defined_days` in
`tests/test_dates.py`: the July 2025 tick days are exactly 6/12/18/24/31. -/
theorem make_tickvals_july_2025 :
    (make_tickvals (mkDate 2025 7 1) (mkDate 2025 7 31)).map Date.day =
      [6, 12, 18, 24, 31] := by decide

/-- Componentwise characterization of `Date` equality. -/
theorem date_eq_iff (a b : Date) : a = b ↔ a.ym = b.ym ∧ a.day = b.day := by
  cases a
  cases b
  simp

/-!
Claim C2.  The spec asserts that `month_range` and `make_tickvals` fail with
an `InvalidRange` error whenever `end < start`.  The source contains no such
check: neither function raises on date inputs.  On an inverted range
`month_range` simply runs its truncated loop (returning one degenerate
bucket, or nothing when `end` precedes the first day of `start`'s month) and
`make_tickvals`'s final filter `start <= tick <= end` is unsatisfiable, so it
returns the empty list. -/

/-- Counterexample to C2: on the inverted range (2025-07-10, 2025-07-01) both
functions return normally — `month_range` yields the degenerate bucket
`[(2025-07-01, 2025-07-01)]` and `make_tickvals` yields `[]` — instead of
failing with `InvalidRange` as the claim states. -/
theorem c2_no_invalid_range_cx :
    month_range (mkDate 2025 7 10) (mkDate 2025 7 1) =
        [(mkDate 2025 7 1, mkDate 2025 7 1)] ∧
      make_tickvals (mkDate 2025 7 10) (mkDate 2025 7 1) = [] := by
  constructor
  · decide
  · decide

/-- C2 (amended): `month_range` and `make_tickvals` perform no range
validation and never fail; for `end < start` (with `end` a real calendar
date, `day >= 1`) the final filter of `make_tickvals` is unsatisfiable, so
it returns the empty list, and `month_range` returns its truncated bucket
list — a single degenerate bucket when `end` falls in `start`'s month and
the empty list otherwise — while for `end >= start` both are pure and total. -/
theorem grid_inverted_no_failure (start last : Date)
    (h : Date.lt last start = true) (hday : 1 ≤ last.day) :
    make_tickvals start last = [] ∧
      month_range start last =
        (if last.ym = start.ym then
          [(⟨start.ym, 1⟩, dmin ⟨start.ym, daysInMonth start.ym⟩ last)]
        else []) := by
  constructor
  · unfold make_tickvals
    rw [List.filter_eq_nil_iff]
    intro t _
    simp only [Date.lt, decide_eq_true_eq] at h
    simp only [Date.le, Bool.and_eq_true, decide_eq_true_eq, not_and]
    omega
  · unfold month_range
    simp only [Date.lt, decide_eq_true_eq] at h
    by_cases hym : last.ym = start.ym
    · rw [if_pos hym]
      have hfuel : (last.ym + 1 - start.ym).toNat = 1 := by omega
      rw [hfuel]
      have hle : Date.le ⟨start.ym, 1⟩ last = true := by
        simp only [Date.le, decide_eq_true_eq]
        omega
      simp [month_range_go, hle]
    · rw [if_neg hym]
      have hfuel : (last.ym + 1 - start.ym).toNat = 0 := by omega
      rw [hfuel]
      rfl

/-- Witness for the amended C2 theorem at the concrete inverted range
(2025-08-05, 2025-08-01). -/
theorem grid_inverted_no_failure_witness :
    Date.lt (mkDate 2025 8 1) (mkDate 2025 8 5) = true ∧
      make_tickvals (mkDate 2025 8 5) (mkDate 2025 8 1) = [] ∧
      month_range (mkDate 2025 8 5) (mkDate 2025 8 1) =
        (if (mkDate 2025 8 1).ym = (mkDate 2025 8 5).ym then
          [((⟨(mkDate 2025 8 5).ym, 1⟩ : Date),
            dmin ⟨(mkDate 2025 8 5).ym, daysInMonth (mkDate 2025 8 5).ym⟩
              (mkDate 2025 8 1))]
        else []) :=
  ⟨by decide,
    (grid_inverted_no_failure (mkDate 2025 8 5) (mkDate 2025 8 1)
      (by decide) (by decide)).1,
    (grid_inverted_no_failure (mkDate 2025 8 5) (mkDate 2025 8 1)
      (by decide) (by decide)).2⟩

/-!
Claim C5: an inverted segment (`segEnd < segStart`) makes
`clip_segment_to_range` raise `InvalidSegmentRange` (a `ValueError` in the
source), and the check precedes any use of the view window. -/

/-- C5: for every inverted segment (`end < start`) and every view window,
`clip_segment_to_range` fails with the range error; the quantification over
arbitrary `view_start`/`view_end` captures that the check happens before any
clipping or overlap test, so even a segment entirely outside the view window
is rejected. -/
theorem clip_inverted_always_error (project_id label : String)
    (start «end» view_start view_end : Date)
    (h : Date.lt «end» start = true) :
    clip_segment_to_range project_id label start «end» view_start view_end =
      Except.error "end_date must be greater than or equal to start_date" := by
  simp [clip_segment_to_range, h]

/-- Witness for C5: the spec's own example, segment (2025-07-10, 2025-07-01),
with a view window (2030-01-01, 2030-12-31) that the segment does not even
intersect. -/
theorem clip_inverted_always_error_witness :
    Date.lt (mkDate 2025 7 1) (mkDate 2025 7 10) = true ∧
      clip_segment_to_range "1" "A" (mkDate 2025 7 10) (mkDate 2025 7 1)
          (mkDate 2030 1 1) (mkDate 2030 12 31) =
        Except.error "end_date must be greater than or equal to start_date" :=
  ⟨by decide,
    clip_inverted_always_error "1" "A" (mkDate 2025 7 10) (mkDate 2025 7 1)
      (mkDate 2030 1 1) (mkDate 2030 12 31) (by decide)⟩

/-!
Claim C6: for a valid segment, `clip_segment_to_range` returns `None`
exactly when `segEnd < viewStart` or `segStart > viewEnd`, and otherwise the
clipped segment `[max(segStart, viewStart), min(segEnd, viewEnd)]`; both
bounds inclusive, so one-point contact still yields a clipped segment. -/

/-- C6: characterization of `clip_segment_to_range` on valid segments
(`start <= end`): the result is `Empty` (`ok none`) iff the segment misses
the window (`end < view_start` or `start > view_end`), and otherwise it is
the clipped segment with `start = max(start, view_start)` and
`end = min(end, view_end)`.  Since the miss condition uses strict
comparisons, a segment touching the window in exactly one point
(`end = view_start`) yields a `ClippedSegment`, not `Empty`. -/
theorem clip_valid_characterization (project_id label : String)
    (start «end» view_start view_end : Date)
    (h : Date.le start «end» = true) :
    (clip_segment_to_range project_id label start «end» view_start view_end =
        Except.ok none ↔
      (Date.lt «end» view_start = true ∨ Date.lt view_end start = true)) ∧
    (Date.lt «end» view_start = false → Date.lt view_end start = false →
      clip_segment_to_range project_id label start «end» view_start view_end =
        Except.ok (some ⟨project_id, label, dmax start view_start,
          dmin «end» view_end⟩)) := by
  have hlt : Date.lt «end» start = false := by
    simp only [Date.le, decide_eq_true_eq] at h
    simp only [Date.lt, decide_eq_false_iff_not]
    omega
  refine ⟨?_, ?_⟩
  · by_cases hc : (Date.lt «end» view_start || Date.lt view_end start) = true
    · simp only [clip_segment_to_range, hlt, Bool.false_eq_true, if_false, hc, if_true]
      simp only [Bool.or_eq_true] at hc
      simp [hc]
    · simp only [clip_segment_to_range, hlt, Bool.false_eq_true, if_false, hc, if_false]
      simp only [Bool.or_eq_true, not_or, Bool.not_eq_true] at hc
      simp [hc.1, hc.2]
  · intro h1 h2
    simp [clip_segment_to_range, hlt, h1, h2]

/-- Witness for C6 at the spec's example: segment (2025-07-01, 2025-07-31)
clipped to the window (2025-07-10, 2025-07-20) yields exactly
(2025-07-10, 2025-07-20). -/
theorem clip_valid_characterization_witness :
    Date.le (mkDate 2025 7 1) (mkDate 2025 7 31) = true ∧
      clip_segment_to_range "1" "A" (mkDate 2025 7 1) (mkDate 2025 7 31)
          (mkDate 2025 7 10) (mkDate 2025 7 20) =
        Except.ok (some ⟨"1", "A", dmax (mkDate 2025 7 1) (mkDate 2025 7 10),
          dmin (mkDate 2025 7 31) (mkDate 2025 7 20)⟩) :=
  ⟨by decide,
    (clip_valid_characterization "1" "A" (mkDate 2025 7 1) (mkDate 2025 7 31)
        (mkDate 2025 7 10) (mkDate 2025 7 20) (by decide)).2 (by decide) (by decide)⟩

/-!
Claim C3.  The spec asserts that a project owning zero segments still gets a
row built from the project's own `start_date`/`end_date` (a fallback primary
span).  `build_gantt_dataframe` has no such fallback: its only row source is
the left merge of the *segments* table, so a project that appears in no
segment contributes no row at all.  (In the application the primary span is
materialized elsewhere: `_build_segments` in `app.py` creates an explicit
`"{id}-main"` segment per project at initial data load.) -/

/-- Counterexample to C3: one project and an empty segments table yield an
empty render payload, not a fallback row carrying the project's own span. -/
theorem zero_segment_project_no_row_cx :
    build_gantt_dataframe [pSample] []
      (mkDate 2025 7 1) (mkDate 2025 7 31) = [] := rfl

/-- C3 (amended): the timeline assembler emits no fallback row for a project
with zero segments — with an empty segments table the payload is empty no
matter which projects exist; the fallback primary span exists only as the
explicit `"{id}-main"` segment created at initial data load. -/
theorem assembler_no_fallback_rows (projects : List ProjectRow)
    (view_start view_end : Date) :
    build_gantt_dataframe projects [] view_start view_end = [] := rfl

/-!
Claims C7-C10: the edit-history manager. -/

/-- `dequeAppend` always keeps the appended element as the newest (last)
snapshot. -/
theorem getLast?_dequeAppend (l : List Snapshot) (x : Snapshot) :
    (dequeAppend l x).getLast? = some x := by
  unfold dequeAppend
  split <;> exact List.getLast?_concat _

/-- C7: the undo/redo round trip is lossless: from current tables `S0`,
`update_data` to `(p, s)` followed by `undo` restores exactly `S0`, and a
subsequent `redo` restores exactly `(p, s)`. -/
theorem history_round_trip (st : AppState) (p : List ProjectRow)
    (s : List SegmentRow) :
    (undo (update_data st p s)).1.projects_df = st.projects_df ∧
    (undo (update_data st p s)).1.segments_df = st.segments_df ∧
    (redo (undo (update_data st p s)).1).1.projects_df = p ∧
    (redo (undo (update_data st p s)).1).1.segments_df = s := by
  have h1 : undo (update_data st p s) =
      ({ update_data st p s with
          projects_df := st.projects_df
          segments_df := st.segments_df
          history := (dequeAppend st.history (st.projects_df, st.segments_df)).dropLast
          future := dequeAppendLeft [] (p, s) }, false) := by
    unfold undo update_data push_history
    simp only [getLast?_dequeAppend]
  rw [h1]
  have h2 : dequeAppendLeft [] (p, s) = [(p, s)] := rfl
  simp [h2, redo]

/-- C8: a fresh edit (`push_history`, and hence `update_data`) clears the
`future` stack unconditionally, so after an `undo` followed by a fresh
`update_data`, a `redo` is a benign no-op (it returns the state unchanged,
with the notice flag). -/
theorem fresh_edit_clears_future (st : AppState) (p : List ProjectRow)
    (s : List SegmentRow) :
    (push_history st).future = [] ∧
    (update_data st p s).future = [] ∧
    redo (update_data (undo st).1 p s) = (update_data (undo st).1 p s, true) := by
  refine ⟨rfl, rfl, ?_⟩
  rfl

/-- C9: history underflow is a benign no-op with a notice: `undo` on an
empty history stack returns the state unchanged together with the notice
flag, and `redo` on an empty future stack does the same. -/
theorem history_underflow_noop (st : AppState) :
    (st.history = [] → undo st = (st, true)) ∧
    (st.future = [] → redo st = (st, true)) := by
  constructor
  · intro h
    unfold undo
    rw [h]
    rfl
  · intro h
    unfold redo
    rw [h]

/-- Witness for C9 at a concrete state with empty stacks. -/
theorem history_underflow_noop_witness :
    undo emptyState = (emptyState, true) ∧ redo emptyState = (emptyState, true) :=
  ⟨(history_underflow_noop emptyState).1 rfl,
    (history_underflow_noop emptyState).2 rfl⟩

/-- C10: every history operation (`push_history`, `update_data`, `undo`,
`redo`) leaves the `filters` and `settings` fields of the session state
unchanged — only the tables and the two stacks are ever modified. -/
theorem history_ops_preserve_filters_settings (st : AppState)
    (p : List ProjectRow) (s : List SegmentRow) :
    (push_history st).filters = st.filters ∧
    (push_history st).settings = st.settings ∧
    (update_data st p s).filters = st.filters ∧
    (update_data st p s).settings = st.settings ∧
    (undo st).1.filters = st.filters ∧
    (undo st).1.settings = st.settings ∧
    (redo st).1.filters = st.filters ∧
    (redo st).1.settings = st.settings := by
  refine ⟨rfl, rfl, rfl, rfl, ?_, ?_, ?_, ?_⟩
  · unfold undo
    cases st.history.getLast? <;> rfl
  · unfold undo
    cases st.history.getLast? <;> rfl
  · unfold redo
    cases st.future <;> rfl
  · unfold redo
    cases st.future <;> rfl

/-!
Claim C1: a segment whose `project_id` matches no project produces no row in
the payload of `build_gantt_dataframe`.  In the source this holds because the
left merge fills the project columns of such a row with NaN, `to_datetime`
turns the project's `start_date`/`end_date` into NaT, and the row filter
`(end >= view_start) & (start <= view_end)` is false on NaT comparisons, so
the orphan row is always dropped. -/

/-- A successfully filtered row always comes from a merged row with a
matching project, and keeps that row's `project_id` and merge position. -/
theorem toPreRow_some (view_start view_end : Date) (m : MergedRow) (r : PreRow)
    (h : toPreRow view_start view_end m = some r) :
    (∃ p, m.proj = some p) ∧ r.project_id = m.seg.project_id ∧ r.midx = m.midx := by
  unfold toPreRow at h
  cases hp : m.proj with
  | none =>
    rw [hp] at h
    exact absurd h (by simp)
  | some p =>
    rw [hp] at h
    simp only at h
    split at h
    · cases h
      exact ⟨⟨p, rfl⟩, rfl, rfl⟩
    · cases h

/-- A merged row whose project column is filled comes from a project of the
projects table whose `id` equals the segment's `project_id`. -/
theorem mergeRows_mem (P : List ProjectRow) (S : List SegmentRow)
    (m : MergedRow) (hm : m ∈ mergeRows P S) (p : ProjectRow)
    (hp : m.proj = some p) : p ∈ P ∧ p.id = m.seg.project_id := by
  unfold mergeRows at hm
  rw [List.mem_map] at hm
  obtain ⟨ip, hip, hm2⟩ := hm
  subst hm2
  have hpair : ip.2 ∈ mergePairs P S := by
    have hsnd := List.enum_map_snd (mergePairs P S)
    rw [← hsnd]
    exact List.mem_map_of_mem Prod.snd hip
  unfold mergePairs at hpair
  rw [List.mem_flatMap] at hpair
  obtain ⟨s, hsS, hmem⟩ := hpair
  have hp2 : ip.2.2 = some p := hp
  cases hf : P.filter (fun q => q.id == s.project_id) with
  | nil =>
    rw [hf] at hmem
    simp only [List.mem_singleton] at hmem
    rw [hmem] at hp2
    simp at hp2
  | cons q qs =>
    rw [hf] at hmem
    rw [List.mem_map] at hmem
    obtain ⟨p2, hmem2, hpair2⟩ := hmem
    have hproj : ip.2.2 = some p2 := by
      rw [← hpair2]
    have hseg : ip.2.1 = s := by
      rw [← hpair2]
    have hpp : p2 = p := by
      rw [hproj] at hp2
      injection hp2
    have hpfilter : p2 ∈ P.filter (fun q => q.id == s.project_id) := by
      rw [hf]
      exact hmem2
    rw [List.mem_filter] at hpfilter
    have hid2 : p2.id = s.project_id := by
      simpa using hpfilter.2
    constructor
    · rw [← hpp]
      exact hpfilter.1
    · show p.id = ip.2.1.project_id
      rw [hseg, ← hpp]
      exact hid2

/-- Every row of `addOrdinals l` carries the `project_id` of a row of `l`. -/
theorem addOrdinals_mem (l : List PreRow) (r : GanttRow) (h : r ∈ addOrdinals l) :
    ∃ q ∈ l, q.project_id = r.project_id := by
  unfold addOrdinals at h
  rw [List.mem_map] at h
  obtain ⟨ir, hir, hr⟩ := h
  refine ⟨ir.2, ?_, ?_⟩
  · have hsnd := List.enum_map_snd l
    rw [← hsnd]
    exact List.mem_map_of_mem Prod.snd hir
  · rw [← hr]

/-- Every row of the assembled payload has a matching project in the
projects table. -/
theorem mem_build_gantt_matched (P : List ProjectRow) (S : List SegmentRow)
    (view_start view_end : Date) (r : GanttRow)
    (hr : r ∈ build_gantt_dataframe P S view_start view_end) :
    ∃ p ∈ P, p.id = r.project_id := by
  obtain ⟨q, hq, hqid⟩ := addOrdinals_mem _ r hr
  rw [List.mem_insertionSort] at hq
  unfold ganttFilter at hq
  rw [List.mem_filterMap] at hq
  obtain ⟨m, hm, hpre⟩ := hq
  obtain ⟨⟨p, hp⟩, hqpid, _⟩ := toPreRow_some view_start view_end m q hpre
  obtain ⟨hpP, hpid⟩ := mergeRows_mem P S m hm p hp
  refine ⟨p, hpP, ?_⟩
  rw [hpid, ← hqid, hqpid]

/-- C1: an orphaned segment — one whose `project_id` is the `id` of no
project in the projects table — produces no row in the payload of
`build_gantt_dataframe`: its `project_id` never appears among the emitted
rows. -/
theorem orphan_segment_emits_no_row (P : List ProjectRow) (S : List SegmentRow)
    (s : SegmentRow) (hs : s ∈ S) (horph : ∀ p ∈ P, p.id ≠ s.project_id)
    (view_start view_end : Date) :
    s.project_id ∉
      (build_gantt_dataframe P S view_start view_end).map
        (fun r => r.project_id) := by
  intro hmem
  rw [List.mem_map] at hmem
  obtain ⟨r, hr, hpid⟩ := hmem
  obtain ⟨p, hpP, hpidr⟩ := mem_build_gantt_matched P S view_start view_end r hr
  exact horph p hpP (hpidr.trans hpid)

/-- Witness for C1: the orphan `sOrphan` (project id `"zz"`) sits in a
segments table whose other segment does produce a row, yet `"zz"` appears in
no payload row. -/
theorem orphan_segment_emits_no_row_witness :
    sOrphan.project_id ∉
      (build_gantt_dataframe [pSample] [sOrphan, sSample]
          (mkDate 2025 7 1) (mkDate 2025 7 31)).map (fun r => r.project_id) :=
  orphan_segment_emits_no_row [pSample] [sOrphan, sSample] sOrphan
    (by simp) (by decide) (mkDate 2025 7 1) (mkDate 2025 7 31)

/-!
Claim C4.  The spec asserts that within one project the emitted row ordinals
order segments by clipped start, with ties broken by `segment_id`.  In the
source, `sort_values(["project_id", "start"])` is a *stable* sort, so rows
with equal keys keep their relative order from the merged frame — i.e. ties
are broken by position in the input segments table, not by `segment_id`.
(Moreover, because the merge suffixes make `start` come from the project's
columns, all rows of one project share the same clipped start, so the
tie-break governs the entire within-project order.)  The amended theorem
proves the actual ordering: by clipped start, ties by merge position
(`midx`), which is still deterministic for identical input. -/

/-- Element shape of `addOrdinals`: row `i` keeps the fields of `l.get i`
and receives the cumulative per-project count of the preceding rows. -/
theorem addOrdinals_get (l : List PreRow) (i : Nat)
    (hAl : i < (addOrdinals l).length) (hl : i < l.length) :
    (addOrdinals l).get ⟨i, hAl⟩ =
      { segment_id := (l.get ⟨i, hl⟩).segment_id,
        project_id := (l.get ⟨i, hl⟩).project_id,
        label := (l.get ⟨i, hl⟩).label,
        name := (l.get ⟨i, hl⟩).name,
        progress := (l.get ⟨i, hl⟩).progress,
        color := (l.get ⟨i, hl⟩).color,
        start := (l.get ⟨i, hl⟩).start,
        «end» := (l.get ⟨i, hl⟩).«end»,
        midx := (l.get ⟨i, hl⟩).midx,
        row := (l.take i).countP fun q => q.project_id == (l.get ⟨i, hl⟩).project_id,
        display_name := (l.get ⟨i, hl⟩).name ++ " / " ++ (l.get ⟨i, hl⟩).label } := by
  simp [addOrdinals, List.get_eq_getElem, List.getElem_map, List.getElem_enum]

/-- Counting a satisfied predicate over a strictly longer prefix that
includes a satisfying element at position `i` strictly increases. -/
theorem countP_take_lt {α : Type} (l : List α) (p : α → Bool) (i j : Nat)
    (hij : i < j) (hj : j ≤ l.length) (hi : i < l.length)
    (hpi : p (l.get ⟨i, hi⟩) = true) :
    (l.take i).countP p < (l.take j).countP p := by
  have h1 : l.take j = l.take i ++ (l.drop i).take (j - i) := by
    rw [← List.take_add]
    congr 1
    omega
  have h2 : l.drop i = l.get ⟨i, hi⟩ :: l.drop (i + 1) := by
    rw [List.drop_eq_getElem_cons hi]
    simp [List.get_eq_getElem]
  have h3 : j - i = (j - i - 1) + 1 := by omega
  rw [h1, List.countP_append, h2, h3, List.take_succ_cons, List.countP_cons, hpi]
  simp only [if_true]
  omega

/-- The merge positions `midx` are strictly increasing along the filtered
(pre-sort) row list. -/
theorem ganttFilter_midx_pairwise (P : List ProjectRow) (S : List SegmentRow)
    (view_start view_end : Date) :
    (ganttFilter P S view_start view_end).Pairwise (fun a b => a.midx < b.midx) := by
  unfold ganttFilter
  rw [List.pairwise_filterMap]
  have hmr : (mergeRows P S).Pairwise (fun a b => a.midx < b.midx) := by
    unfold mergeRows
    rw [List.pairwise_map]
    rw [List.pairwise_iff_getElem]
    intro i j hi hj hij
    simp only [List.getElem_enum]
    exact hij
  refine hmr.imp ?_
  intro a b hab r hr r2 hr2
  rw [Option.mem_def] at hr hr2
  have h1 := (toPreRow_some view_start view_end a r hr).2.2
  have h2 := (toPreRow_some view_start view_end b r2 hr2).2.2
  rw [h1, h2]
  exact hab

/-- After the stable sort the merge positions are still pairwise distinct. -/
theorem sorted_midx_nodup (P : List ProjectRow) (S : List SegmentRow)
    (view_start view_end : Date) :
    ((List.insertionSort ganttRel (ganttFilter P S view_start view_end)).map
      (fun r => r.midx)).Nodup := by
  have hperm :
      List.Perm (List.insertionSort ganttRel (ganttFilter P S view_start view_end))
        (ganttFilter P S view_start view_end) :=
    List.perm_insertionSort ganttRel _
  have hnd : ((ganttFilter P S view_start view_end).map (fun r => r.midx)).Nodup := by
    have hpw := ganttFilter_midx_pairwise P S view_start view_end
    have : (ganttFilter P S view_start view_end).Pairwise
        (fun a b => a.midx ≠ b.midx) := hpw.imp Nat.ne_of_lt
    exact List.pairwise_map.2 this
  exact ((hperm.map (fun r => r.midx)).nodup_iff).2 hnd

/-- Propositional unfolding of the sort comparator. -/
theorem ganttRel_iff (a b : PreRow) :
    ganttRel a b ↔
      (a.project_id.data < b.project_id.data ∨
        (a.project_id = b.project_id ∧
          (Date.lt a.start b.start = true ∨
            (a.start = b.start ∧ a.midx ≤ b.midx)))) := by
  unfold ganttRel ganttLe
  simp [Bool.or_eq_true, Bool.and_eq_true, decide_eq_true_eq]

/-- C4 (amended): within one project, the emitted row ordinals order rows by
clipped start, and rows with equal clipped starts are ordered by their
position in the merged input (`midx`) — the stable-sort tie-break — rather
than by `segment_id`; since `build_gantt_dataframe` is a pure function of
its input, the assignment is deterministic across re-renders of identical
input. -/
theorem gantt_rows_ordered (P : List ProjectRow) (S : List SegmentRow)
    (vs ve : Date) (i j : Nat) (r1 r2 : GanttRow) (hij : i < j)
    (h1 : (build_gantt_dataframe P S vs ve).get? i = some r1)
    (h2 : (build_gantt_dataframe P S vs ve).get? j = some r2)
    (hpid : r1.project_id = r2.project_id) :
    r1.row < r2.row ∧
      (Date.lt r1.start r2.start = true ∨
        (r1.start = r2.start ∧ r1.midx < r2.midx)) := by
  rw [List.get?_eq_some] at h1 h2
  obtain ⟨hi, hr1⟩ := h1
  obtain ⟨hj, hr2⟩ := h2
  subst hr1
  subst hr2
  unfold build_gantt_dataframe at hi hj hpid ⊢
  have hiS : i < (List.insertionSort ganttRel (ganttFilter P S vs ve)).length := by
    simpa [addOrdinals] using hi
  have hjS : j < (List.insertionSort ganttRel (ganttFilter P S vs ve)).length := by
    simpa [addOrdinals] using hj
  rw [addOrdinals_get _ i hi hiS, addOrdinals_get _ j hj hjS] at hpid ⊢
  simp only at hpid ⊢
  have hsorted : (List.insertionSort ganttRel (ganttFilter P S vs ve)).Pairwise ganttRel :=
    List.sorted_insertionSort ganttRel (ganttFilter P S vs ve)
  have hrel : ganttRel
      ((List.insertionSort ganttRel (ganttFilter P S vs ve)).get ⟨i, hiS⟩)
      ((List.insertionSort ganttRel (ganttFilter P S vs ve)).get ⟨j, hjS⟩) := by
    have h := List.pairwise_iff_getElem.1 hsorted i j hiS hjS hij
    simpa [List.get_eq_getElem] using h
  constructor
  · rw [← hpid]
    exact countP_take_lt _ _ i j hij (le_of_lt hjS) hiS (by simp)
  · rw [ganttRel_iff] at hrel
    rcases hrel with h | ⟨_, hrest⟩
    · rw [hpid] at h
      exact absurd h (lt_irrefl _)
    rcases hrest with h | ⟨hse, hmx⟩
    · exact Or.inl h
    · refine Or.inr ⟨hse, ?_⟩
      have hnd := sorted_midx_nodup P S vs ve
      have hne :
          ((List.insertionSort ganttRel (ganttFilter P S vs ve)).get ⟨i, hiS⟩).midx ≠
            ((List.insertionSort ganttRel (ganttFilter P S vs ve)).get ⟨j, hjS⟩).midx := by
        intro he
        have hmap :
            ((List.insertionSort ganttRel (ganttFilter P S vs ve)).map
                (fun r => r.midx)).get ⟨i, by simpa using hiS⟩ =
              ((List.insertionSort ganttRel (ganttFilter P S vs ve)).map
                (fun r => r.midx)).get ⟨j, by simpa using hjS⟩ := by
          simp only [List.get_eq_getElem, List.getElem_map]
          simpa [List.get_eq_getElem] using he
        have hfin := (hnd.get_inj_iff).1 hmap
        have : i = j := congrArg Fin.val hfin
        omega
      omega

/-- Counterexample to C4 as stated: in `tieBuild` the two rows of project
`"a"` have equal clipped starts, yet the ordinals follow the input order
(`"s2"` before `"s1"`) although `"s1" < "s2"` — the tie is broken by input
position, not by `segment_id`. -/
theorem gantt_tie_break_cx :
    tieBuild.map (fun r => (r.segment_id, r.row)) = [("s2", 0), ("s1", 1)] ∧
      tieBuild.map (fun r => r.start) = [mkDate 2025 7 1, mkDate 2025 7 1] ∧
      ("s1" : String).data < ("s2" : String).data := by
  refine ⟨?_, ?_, ?_⟩
  · decide
  · decide
  · decide

/-- Witness for the amended C4 theorem on `tieBuild`: rows 0 and 1 belong to
the same project, and the theorem yields the ordinal inequality and the
midx tie-break for them. -/
theorem gantt_rows_ordered_witness :
    (0 : Nat) < (1 : Nat) ∧
      (Date.lt (mkDate 2025 7 1) (mkDate 2025 7 1) = true ∨
        (mkDate 2025 7 1 = mkDate 2025 7 1 ∧ (0 : Nat) < (1 : Nat))) :=
  gantt_rows_ordered [pSample] [sTie, sSample] (mkDate 2025 7 1) (mkDate 2025 7 31)
    0 1
    ⟨"s2", "a", "B", "N", "予定", "#f97316", mkDate 2025 7 1, mkDate 2025 7 31,
      0, 0, "N / B"⟩
    ⟨"s1", "a", "A", "N", "予定", "#f97316", mkDate 2025 7 1, mkDate 2025 7 31,
      1, 1, "N / A"⟩
    (by decide) (by decide) (by decide) rfl
